import Mathlib

/-!
Vicinity alarm clock: the scan cycle and the render loop.

A shallow embedding of `src/vicinity_alarm_clock.cc`.

* C strings are lists of characters; the character with code 0 ends a string,
  and reading past the end of a list reads that terminator.
* `BT_scanner_cycle` is one activation of the body of `BT_scanner`
  (lines 74-119); the values returned by the Bluetooth library are inputs.
* `tick` is one iteration of the `while (!interrupt_received)` loop of `main`
  (lines 236-285); `renderLoop` iterates it and `mainRun` adds what `main` does
  after the loop (lines 290-298). Calls into the audio, display and clock
  libraries are recorded as a trace of `Effect`s, in program order.
-/

namespace VicinityAlarmClock

/-! ## C strings -/

/-- The terminator of a C string. -/
def NUL : Char := Char.ofNat 0

/-- The string a character buffer holds: its characters up to the first terminator. -/
def cstr (buf : List Char) : List Char :=
  buf.takeWhile (fun c => c != NUL)

/-- The libc `strcmp`: walks both strings until they differ or end; the result
is the difference of the first pair of differing characters, 0 when there is none. -/
def strcmp : List Char → List Char → Int
  | [], s2 => (NUL.toNat : Int) - ((s2.headD NUL).toNat : Int)
  | c1 :: r1, s2 =>
    let c2 := s2.headD NUL
    if c1 ≠ c2 then (c1.toNat : Int) - (c2.toNat : Int)
    else if c1 = NUL then 0
    else strcmp r1 s2.tail

/-- The libc `strncmp`: as `strcmp`, over at most `n` characters. -/
def strncmp : List Char → List Char → Nat → Int
  | _, _, 0 => 0
  | s1, s2, n + 1 =>
    let c1 := s1.headD NUL
    let c2 := s2.headD NUL
    if c1 ≠ c2 then (c1.toNat : Int) - (c2.toNat : Int)
    else if c1 = NUL then 0
    else strncmp s1.tail s2.tail n

/-! ## Configuration constants of the source -/

/-- Line 228: `const char* alarm_time = "10:49";`. -/
def alarm_time : List Char := "10:49".toList

/-- Line 107: the string literal every discovered address is compared with. -/
def target_device : List Char := "Simon's phone".toList

/-! ## The render loop of `main` -/

/-- The value a `time_t` of `w` bits holds after an addition whose exact
result is `x`: signed, two's complement, wrapping at the width. The
declaration of `time_t` belongs to the C library, so its width is a parameter
of the loop. -/
def wrapTimeT (w : Nat) (x : Int) : Int :=
  (x + 2 ^ (w - 1)) % 2 ^ w - 2 ^ (w - 1)

/-- The smallest value of a `time_t` of `w` bits. -/
def TIME_MIN (w : Nat) : Int := -(2 ^ (w - 1))

/-- The largest value of a `time_t` of `w` bits. -/
def TIME_MAX (w : Nat) : Int := 2 ^ (w - 1) - 1

/-- The `struct timespec` of line 212. `tv_sec` holds the value of a `time_t`;
every update of it goes through `wrapTimeT`. -/
structure Timespec where
  tv_sec : Int
  tv_nsec : Int
  deriving DecidableEq, Repr

/-- The background colours `Fill` is called with. -/
inductive Background where
  | bg_black
  | bg_alarm
  deriving DecidableEq, Repr

/-- Calls into the audio, display, clock and thread libraries, as they appear in a trace. -/
inductive Effect where
  | fill (bg : Background)
  | musicPlay
  | musicStop
  | drawTime (text : List Char)
  | drawBTLine
  | drawAlarmLabel
  | sleepUntil (t : Timespec)
  | swapOnVSync
  | joinScanner
  | matrixClear
  | matrixDelete
  | writeNewline
  deriving DecidableEq, Repr

/-- The locals of `main` that live across iterations of the loop. -/
structure LoopState where
  alarm_active : Bool
  alarm_sounding : Bool
  alarm_bg_blinker : Bool
  next_time : Timespec
  deriving DecidableEq, Repr

/-- What one iteration reads from outside: the buffer `strftime` filled
(line 237) and the two reads of the volatile `bluetooth_connected`
(lines 241 and 269). -/
structure TickInput where
  text_buffer : List Char
  bt_alarm : Bool
  bt_draw : Bool
  deriving DecidableEq, Repr

/-- Lines 241-247: the new value of `alarm_active`. -/
def alarmDecision (inp : TickInput) : Bool :=
  decide (strncmp inp.text_buffer alarm_time 5 = 0) && inp.bt_alarm

/-- Lines 249-261: the audio and blink part of an iteration, given the new
`alarm_active`. Returns the new `alarm_sounding`, the new `alarm_bg_blinker`
and the calls made. -/
def alarmActions (active sounding blinker : Bool) : Bool × Bool × List Effect :=
  if active then
    let play : List Effect := if !sounding then [Effect.musicPlay] else []
    let blinker1 := !blinker
    let fillAlarm : List Effect :=
      if blinker1 then [Effect.fill Background.bg_alarm] else []
    (true, blinker1, play ++ fillAlarm)
  else
    (false, blinker, [Effect.musicStop])

/-- Lines 264-277: drawing the time and, when the flag is set, the two extra lines. -/
def drawEffects (inp : TickInput) : List Effect :=
  Effect.drawTime inp.text_buffer ::
    (if inp.bt_draw then [Effect.drawBTLine, Effect.drawAlarmLabel] else [])

/-- One iteration of the loop, lines 236-285, for a `time_t` of `w` bits. -/
def tick (w : Nat) (inp : TickInput) (s : LoopState) : LoopState × List Effect :=
  let active := alarmDecision inp
  let r := alarmActions active s.alarm_sounding s.alarm_bg_blinker
  ({ alarm_active := active
     alarm_sounding := r.1
     alarm_bg_blinker := r.2.1
     next_time := { s.next_time with tv_sec := wrapTimeT w (s.next_time.tv_sec + 1) } },
   [Effect.fill Background.bg_black] ++ r.2.2 ++ drawEffects inp ++
     [Effect.sleepUntil s.next_time, Effect.swapOnVSync])

/-- The loop over the iterations that run before the interrupt flag is seen. -/
def renderLoop (w : Nat) : List TickInput → LoopState → LoopState × List Effect
  | [], s => (s, [])
  | inp :: rest, s =>
    let r := tick w inp s
    let r2 := renderLoop w rest r.1
    (r2.1, r.2 ++ r2.2)

/-- Lines 213-214 and 223-225: the state the loop is entered with, `t0` being
the result of `time(NULL)`, a value of the `time_t` range. -/
def initialState (t0 : Int) : LoopState :=
  { alarm_active := false
    alarm_sounding := false
    alarm_bg_blinker := false
    next_time := { tv_sec := t0, tv_nsec := 0 } }

/-- Lines 290-298: what `main` does once the loop has been left. -/
def shutdownEffects : List Effect :=
  [Effect.musicStop, Effect.joinScanner, Effect.matrixClear, Effect.matrixDelete,
   Effect.writeNewline]

/-- The trace of the render thread from loop entry to `return 0`. -/
def mainRun (w : Nat) (t0 : Int) (inputs : List TickInput) : List Effect :=
  (renderLoop w inputs (initialState t0)).2 ++ shutdownEffects

/-- Number of `music.play()` calls in a trace. -/
def playCount (tr : List Effect) : Nat := tr.count Effect.musicPlay

/-- Number of `music.stop()` calls in a trace. -/
def stopCount (tr : List Effect) : Nat := tr.count Effect.musicStop

/-- The condition of line 241 holds for this input. -/
def matching (inp : TickInput) : Prop :=
  inp.text_buffer.take 5 = alarm_time ∧ inp.bt_alarm = true

instance (inp : TickInput) : Decidable (matching inp) := by
  unfold matching; infer_instance

/-- Number of iterations of a run that are entered sounding and left not sounding. -/
def soundingExits (w : Nat) : List TickInput → LoopState → Nat
  | [], _ => 0
  | inp :: rest, s =>
    (if s.alarm_sounding && !(tick w inp s).1.alarm_sounding then 1 else 0) +
      soundingExits w rest (tick w inp s).1

/-- The instants passed to `clock_nanosleep`, in the order of the calls. -/
def sleepTargets : List Effect → List Timespec
  | [] => []
  | Effect.sleepUntil t :: rest => t :: sleepTargets rest
  | _ :: rest => sleepTargets rest

/-! ## Wall-clock time of the render loop -/

/-- Nanoseconds in a second. -/
def NSEC_PER_SEC : Int := 1000000000

/-- The instant a `struct timespec` denotes, in nanoseconds. -/
def Timespec.toNanos (t : Timespec) : Int := t.tv_sec * NSEC_PER_SEC + t.tv_nsec

/-- Line 280, `clock_nanosleep(CLOCK_REALTIME, TIMER_ABSTIME, &next_time, NULL)`
called at instant `now`: the instant the call returns, which is the target, or
`now` when the target has already passed. -/
def clock_nanosleep_abstime (now : Int) (target : Timespec) : Int :=
  max now target.toNanos

/-- Time one iteration spends working, in nanoseconds: before the sleep
(lines 236-277) and after it (lines 283-285). -/
structure TickTiming where
  work_before_sleep : Nat
  work_after_sleep : Nat
  deriving DecidableEq, Repr

/-- The instants at which the sleep of each iteration returns, for a loop
entered at instant `now` in state `s`. -/
def wakeInstants (w : Nat) (now : Int) (s : LoopState) :
    List (TickInput × TickTiming) → List Int
  | [] => []
  | (inp, tm) :: rest =>
    let woke := clock_nanosleep_abstime (now + tm.work_before_sleep) s.next_time
    woke :: wakeInstants w (woke + tm.work_after_sleep) (tick w inp s).1 rest

/-- The work of an iteration takes at most 400 ms. -/
def withinBudget (tm : TickTiming) : Prop :=
  tm.work_before_sleep + tm.work_after_sleep ≤ 400000000

instance (tm : TickTiming) : Decidable (withinBudget tm) := by
  unfold withinBudget; infer_instance

/-! ## One scan cycle of `BT_scanner` -/

/-- One entry of the inquiry result as the loop sees it: the buffer `ba2str`
filled (line 98) and what `hci_read_remote_name` gave (line 101), `none` when
it returned a negative value. -/
structure Device where
  addr : List Char
  remote_name : Option (List Char)
  deriving DecidableEq, Repr

/-- What a scan cycle writes to the standard streams. -/
inductive ScanOutput where
  | perror (msg : List Char)
  | printf (line : List Char)
  deriving DecidableEq, Repr

/-- Lines 99-104: the contents of `name` after the lookup. -/
def resolvedName (d : Device) : List Char :=
  match d.remote_name with
  | some n => n
  | none => "[unknown]".toList

/-- Lines 107-111: the value the loop body writes to `bluetooth_connected`. -/
def deviceFlag (d : Device) : Bool :=
  decide (strcmp d.addr target_device ≠ 0)

/-- Line 105: the line printed for a device. -/
def deviceLine (d : Device) : ScanOutput :=
  ScanOutput.printf (cstr d.addr ++ "  ".toList ++ cstr (resolvedName d) ++ "\n".toList)

/-- Lines 97-112: the `for` loop over the responses, threading `bluetooth_connected`. -/
def scanLoop (flag : Bool) : List Device → Bool × List ScanOutput
  | [] => (flag, [])
  | d :: rest =>
    let r := scanLoop (deviceFlag d) rest
    (r.1, deviceLine d :: r.2)

/-- Lines 74-119, one activation of `BT_scanner` up to the unlock. `flag` is
`bluetooth_connected` on entry; `dev_id`, `sock` and `num_rsp` are the results
of `hci_get_route`, `hci_open_dev` and `hci_inquiry`, and `ii` the array the
inquiry filled. The result is `none` when the process exits at line 86,
otherwise `bluetooth_connected` on leaving and the output. -/
def BT_scanner_cycle (flag : Bool) (dev_id sock num_rsp : Int) (ii : List Device) :
    Option (Bool × List ScanOutput) :=
  if dev_id < 0 ∨ sock < 0 then none
  else
    let err : List ScanOutput :=
      if num_rsp < 0 then [ScanOutput.perror "hci_inquiry".toList] else []
    let r := scanLoop flag (ii.take num_rsp.toNat)
    let flag2 := if num_rsp = 0 then false else r.1
    some (flag2, err ++ r.2)

/-- A device is the configured target: its address string or its resolved name
is the target identifier. -/
def isTarget (d : Device) : Prop :=
  cstr d.addr = target_device ∨ cstr (resolvedName d) = target_device

instance (d : Device) : Decidable (isTarget d) := by
  unfold isTarget; infer_instance

/-! ## The two threads and the shared flag

The scanner thread and the render thread, cut at the statements that touch
`bluetooth_connected` or `recur_m`. An execution is a list of `Action`s, each
run to completion in the order listed. -/

/-- Where the scanner thread stands. -/
inductive ScannerPc where
  | betweenCycles
  | inCycle (num_rsp : Int) (todo : List Device)
  deriving DecidableEq, Repr

/-- What a read of the flag by the render thread saw, and in which situation. -/
structure ReadRecord where
  value : Bool
  last_completed : Bool
  scanner_holds_lock : Bool
  deriving DecidableEq, Repr

/-- The shared variables, the scanner's position, and two records kept for
the statements below: the flag as the last completed cycle left it, and the
reads made so far. -/
structure Shared where
  bluetooth_connected : Bool
  recur_m_locked : Bool
  pc : ScannerPc
  last_completed : Bool
  reads : List ReadRecord
  deriving DecidableEq, Repr

/-- The statements of the two threads. -/
inductive Action where
  | scanBegin (num_rsp : Int) (ii : List Device)
  | scanDevice
  | scanEnd
  | renderRead
  deriving DecidableEq, Repr

/-- Lines 33-35 and 221: the shared state when the scanner thread is started. -/
def Shared.initial : Shared :=
  { bluetooth_connected := false
    recur_m_locked := false
    pc := ScannerPc.betweenCycles
    last_completed := false
    reads := [] }

/-- One statement. `scanBegin` is lines 74-95 (lock, open, inquiry) with the
device opened; `scanDevice` one iteration of the `for` loop; `scanEnd` lines
113-119; `renderRead` the read of line 241, which takes no lock. `none` when
the statement cannot run in this state. -/
def step (s : Shared) : Action → Option Shared
  | Action.scanBegin num_rsp ii =>
    match s.pc with
    | ScannerPc.betweenCycles =>
      if s.recur_m_locked then none
      else some { s with recur_m_locked := true
                         pc := ScannerPc.inCycle num_rsp (ii.take num_rsp.toNat) }
    | ScannerPc.inCycle _ _ => none
  | Action.scanDevice =>
    match s.pc with
    | ScannerPc.inCycle num_rsp (d :: rest) =>
      some { s with bluetooth_connected := deviceFlag d
                    pc := ScannerPc.inCycle num_rsp rest }
    | _ => none
  | Action.scanEnd =>
    match s.pc with
    | ScannerPc.inCycle num_rsp [] =>
      let flag2 := if num_rsp = 0 then false else s.bluetooth_connected
      some { s with bluetooth_connected := flag2
                    recur_m_locked := false
                    pc := ScannerPc.betweenCycles
                    last_completed := flag2 }
    | _ => none
  | Action.renderRead =>
    some { s with reads := s.reads ++
      [{ value := s.bluetooth_connected
         last_completed := s.last_completed
         scanner_holds_lock := s.recur_m_locked }] }

/-- Runs a list of statements in order. -/
def exec (s : Shared) : List Action → Option Shared
  | [] => some s
  | a :: rest =>
    match step s a with
    | some s2 => exec s2 rest
    | none => none

/-- The statements of one whole scan cycle, run without the other thread in between. -/
def cycleActions (num_rsp : Int) (ii : List Device) : List Action :=
  Action.scanBegin num_rsp ii ::
    (List.replicate (ii.take num_rsp.toNat).length Action.scanDevice ++ [Action.scanEnd])

/-! ## Sample inputs -/

/-- An iteration at the alarm minute with the flag set. -/
def tickAtAlarm : TickInput :=
  { text_buffer := "10:49".toList, bt_alarm := true, bt_draw := true }

/-- An iteration at the alarm minute with the flag clear. -/
def tickAtAlarmAbsent : TickInput :=
  { text_buffer := "10:49".toList, bt_alarm := false, bt_draw := false }

/-- An iteration at midnight with the flag clear. -/
def tickMidnight : TickInput :=
  { text_buffer := "00:00".toList, bt_alarm := false, bt_draw := false }

/-- A discovered device that is not the target. -/
def kitchenSpeaker : Device :=
  { addr := "AA:BB:CC:DD:EE:FF".toList, remote_name := some "Kitchen speaker".toList }

/-- A second discovered device whose name lookup fails. -/
def unnamedDevice : Device :=
  { addr := "00:1A:7D:DA:71:13".toList, remote_name := none }

/-- A cycle that finds nothing, then a cycle that finds two devices, with a
read by the render thread after the first device has been handled. -/
def readMidCycle : List Action :=
  [Action.scanBegin 0 [], Action.scanEnd,
   Action.scanBegin 2 [kitchenSpeaker, unnamedDevice], Action.scanDevice, Action.renderRead]

/-- An iteration that works for the whole 400 ms before it sleeps. -/
def slowTick : TickInput × TickTiming :=
  (tickMidnight, { work_before_sleep := 400000000, work_after_sleep := 0 })

/-! ## Facts about the string functions -/

theorem char_diff_ne_zero {c1 c2 : Char} (h : c1 ≠ c2) :
    (c1.toNat : Int) - (c2.toNat : Int) ≠ 0 := by
  intro h0
  apply h
  have h1 : c1.toNat = c2.toNat := by omega
  exact Char.ext (UInt32.ext (by simpa [Char.toNat] using h1))

theorem cstr_nil : cstr [] = [] := rfl

theorem cstr_cons_nul (r : List Char) : cstr (NUL :: r) = [] := by
  simp [cstr, List.takeWhile]

theorem cstr_cons_of_ne {c : Char} (r : List Char) (h : c ≠ NUL) :
    cstr (c :: r) = c :: cstr r := by
  have hb : (c != NUL) = true := by simpa using h
  simp [cstr, List.takeWhile_cons, hb]

/-- The library `strncmp` returns 0 exactly when the two strings agree on their
first `n` characters. -/
theorem strncmp_eq_zero_iff (n : Nat) (s1 s2 : List Char) :
    strncmp s1 s2 n = 0 ↔ (cstr s1).take n = (cstr s2).take n := by
  induction n generalizing s1 s2 with
  | zero => simp [strncmp]
  | succ n ih =>
    rcases s1 with _ | ⟨a, r1⟩ <;> rcases s2 with _ | ⟨b, r2⟩
    · simp [strncmp, cstr_nil]
    · by_cases hb : b = NUL
      · subst hb; simp [strncmp, cstr_nil, cstr_cons_nul]
      · have hne : NUL ≠ b := fun h => hb h.symm
        simp [strncmp, cstr_nil, cstr_cons_of_ne r2 hb, hne, char_diff_ne_zero hne]
    · by_cases ha : a = NUL
      · subst ha; simp [strncmp, cstr_nil, cstr_cons_nul]
      · simp [strncmp, cstr_nil, cstr_cons_of_ne r1 ha, ha, char_diff_ne_zero ha]
    · by_cases hab : a = b
      · subst hab
        by_cases ha : a = NUL
        · subst ha; simp [strncmp, cstr_cons_nul]
        · simp [strncmp, cstr_cons_of_ne _ ha, ha, ih]
      · by_cases ha : a = NUL
        · subst ha
          have hb : b ≠ NUL := fun h => hab h.symm
          simp [strncmp, cstr_cons_nul, cstr_cons_of_ne r2 hb, hab, char_diff_ne_zero hab]
        · by_cases hb : b = NUL
          · subst hb
            simp [strncmp, cstr_cons_nul, cstr_cons_of_ne r1 ha, hab, char_diff_ne_zero hab]
          · simp [strncmp, cstr_cons_of_ne r1 ha, cstr_cons_of_ne r2 hb, hab,
              char_diff_ne_zero hab]

/-- The library `strcmp` returns 0 exactly when the two strings are equal. -/
theorem strcmp_eq_zero_iff (s1 s2 : List Char) :
    strcmp s1 s2 = 0 ↔ cstr s1 = cstr s2 := by
  induction s1 generalizing s2 with
  | nil =>
    rcases s2 with _ | ⟨b, r2⟩
    · simp [strcmp, cstr_nil]
    · by_cases hb : b = NUL
      · subst hb; simp [strcmp, cstr_nil, cstr_cons_nul]
      · have hne : NUL ≠ b := fun h => hb h.symm
        simp [strcmp, cstr_nil, cstr_cons_of_ne r2 hb, char_diff_ne_zero hne]
  | cons a r1 ih =>
    rcases s2 with _ | ⟨b, r2⟩
    · by_cases ha : a = NUL
      · subst ha; simp [strcmp, cstr_nil, cstr_cons_nul]
      · simp [strcmp, cstr_nil, cstr_cons_of_ne r1 ha, ha, char_diff_ne_zero ha]
    · by_cases hab : a = b
      · subst hab
        by_cases ha : a = NUL
        · subst ha; simp [strcmp, cstr_cons_nul]
        · simp [strcmp, cstr_cons_of_ne _ ha, ha, ih]
      · by_cases ha : a = NUL
        · subst ha
          have hb : b ≠ NUL := fun h => hab h.symm
          simp [strcmp, cstr_cons_nul, cstr_cons_of_ne r2 hb, hab, char_diff_ne_zero hab]
        · by_cases hb : b = NUL
          · subst hb
            simp [strcmp, cstr_cons_nul, cstr_cons_of_ne r1 ha, hab, char_diff_ne_zero hab]
          · simp [strcmp, cstr_cons_of_ne r1 ha, cstr_cons_of_ne r2 hb, hab,
              char_diff_ne_zero hab]

theorem alarm_time_chars : alarm_time = ['1', '0', ':', '4', '9'] := by decide

theorem cstr_alarm_time : cstr alarm_time = alarm_time := by decide

/-- A buffer whose string starts with `p` starts with `p` itself, and conversely,
when `p` holds no terminator. -/
theorem take_cstr_eq_iff (p buf : List Char) (hp : ∀ c ∈ p, c ≠ NUL) :
    (cstr buf).take p.length = p ↔ buf.take p.length = p := by
  induction p generalizing buf with
  | nil => simp
  | cons c p ih =>
    have hc : c ≠ NUL := hp c (List.mem_cons_self _ _)
    have hp2 : ∀ d ∈ p, d ≠ NUL := fun d hd => hp d (List.mem_cons_of_mem _ hd)
    rcases buf with _ | ⟨a, r⟩
    · simp [cstr_nil]
    · by_cases ha : a = NUL
      · subst ha
        simp [cstr_cons_nul]
        intro h; exact absurd h.symm hc
      · simp [cstr_cons_of_ne r ha, ih r hp2]

theorem strncmp_alarm_time (text : List Char) :
    strncmp text alarm_time 5 = 0 ↔ text.take 5 = alarm_time := by
  rw [strncmp_eq_zero_iff, cstr_alarm_time]
  have h := take_cstr_eq_iff alarm_time text (by decide)
  have h5 : alarm_time.length = 5 := by decide
  rw [h5] at h
  have ht : alarm_time.take 5 = alarm_time := by decide
  rw [ht]
  exact h

/-! ## The alarm decision and the audio calls -/

theorem alarmDecision_iff (inp : TickInput) :
    alarmDecision inp = true ↔ matching inp := by
  simp [alarmDecision, matching, strncmp_alarm_time]

theorem alarmDecision_eq (inp : TickInput) :
    alarmDecision inp = decide (matching inp) := by
  by_cases h : matching inp
  · simp [h, (alarmDecision_iff inp).2 h]
  · have : alarmDecision inp = false := by
      cases hd : alarmDecision inp
      · rfl
      · exact absurd ((alarmDecision_iff inp).1 hd) h
    simp [h, this]

theorem tick_alarm_active (w : Nat) (inp : TickInput) (s : LoopState) :
    (tick w inp s).1.alarm_active = decide (matching inp) := by
  simp [tick, alarmDecision_eq]

theorem tick_alarm_sounding (w : Nat) (inp : TickInput) (s : LoopState) :
    (tick w inp s).1.alarm_sounding = decide (matching inp) := by
  by_cases h : matching inp <;> simp [tick, alarmDecision_eq, alarmActions, h]

theorem tick_next_time (w : Nat) (inp : TickInput) (s : LoopState) :
    (tick w inp s).1.next_time =
      { s.next_time with tv_sec := wrapTimeT w (s.next_time.tv_sec + 1) } := by
  simp [tick]

theorem count_drawEffects_play (inp : TickInput) :
    (drawEffects inp).count Effect.musicPlay = 0 := by
  cases h : inp.bt_draw <;> simp [drawEffects, h]

theorem count_drawEffects_stop (inp : TickInput) :
    (drawEffects inp).count Effect.musicStop = 0 := by
  cases h : inp.bt_draw <;> simp [drawEffects, h]

/-- An iteration calls `music.stop()` once when line 241 fails and not at all otherwise. -/
theorem stopCount_tick (w : Nat) (inp : TickInput) (s : LoopState) :
    stopCount (tick w inp s).2 = if matching inp then 0 else 1 := by
  by_cases h : matching inp
  · cases hb : s.alarm_bg_blinker <;> cases hs : s.alarm_sounding <;>
      simp [stopCount, tick, alarmDecision_eq, alarmActions, h, hb, hs,
        List.count_cons, count_drawEffects_stop]
  · simp [stopCount, tick, alarmDecision_eq, alarmActions, h,
      List.count_cons, count_drawEffects_stop]

/-- An iteration calls `music.play()` once when line 241 holds and the alarm
was not sounding, and not at all otherwise. -/
theorem playCount_tick (w : Nat) (inp : TickInput) (s : LoopState) :
    playCount (tick w inp s).2 =
      if matching inp ∧ s.alarm_sounding = false then 1 else 0 := by
  by_cases h : matching inp
  · cases hb : s.alarm_bg_blinker <;> cases hs : s.alarm_sounding <;>
      simp [playCount, tick, alarmDecision_eq, alarmActions, h, hb, hs,
        List.count_cons, count_drawEffects_play]
  · simp [playCount, tick, alarmDecision_eq, alarmActions, h,
      List.count_cons, count_drawEffects_play]

theorem renderLoop_cons (w : Nat) (inp : TickInput) (rest : List TickInput) (s : LoopState) :
    renderLoop w (inp :: rest) s =
      ((renderLoop w rest (tick w inp s).1).1, (tick w inp s).2 ++ (renderLoop w rest (tick w inp s).1).2) :=
  rfl

/-- A run of matching iterations entered sounding makes no audio call and stays sounding. -/
theorem renderLoop_matching_sounding (w : Nat) (run : List TickInput) (s : LoopState)
    (hs : s.alarm_sounding = true) (hm : ∀ i ∈ run, matching i) :
    playCount (renderLoop w run s).2 = 0 ∧ stopCount (renderLoop w run s).2 = 0 ∧
      (renderLoop w run s).1.alarm_sounding = true := by
  induction run generalizing s with
  | nil => simp [renderLoop, playCount, stopCount, hs]
  | cons inp rest ih =>
    have h1 : matching inp := hm inp (List.mem_cons_self _ _)
    have h2 : ∀ i ∈ rest, matching i := fun i hi => hm i (List.mem_cons_of_mem _ hi)
    have hs2 : (tick w inp s).1.alarm_sounding = true := by
      rw [tick_alarm_sounding]; simp [h1]
    obtain ⟨ihp, ihs, iht⟩ := ih (tick w inp s).1 hs2 h2
    have hp := playCount_tick w inp s
    have hst := stopCount_tick w inp s
    simp only [playCount, stopCount] at ihp ihs hp hst
    refine ⟨?_, ?_, ?_⟩
    · simp [renderLoop_cons, playCount, List.count_append, ihp, hp, hs]
    · simp [renderLoop_cons, stopCount, List.count_append, ihs, hst, h1]
    · simpa [renderLoop_cons] using iht

/-- The loop calls `music.stop()` once per iteration on which line 241 fails. -/
theorem stopCount_renderLoop (w : Nat) (inputs : List TickInput) (s : LoopState) :
    stopCount (renderLoop w inputs s).2 =
      (inputs.filter (fun i => !decide (matching i))).length := by
  induction inputs generalizing s with
  | nil => simp [renderLoop, stopCount]
  | cons inp rest ih =>
    have h1 := stopCount_tick w inp s
    have h2 := ih (tick w inp s).1
    simp only [stopCount] at h1 h2 ⊢
    by_cases h : matching inp
    · simp [renderLoop_cons, List.count_append, h1, h2, h, List.filter_cons]
    · simp [renderLoop_cons, List.count_append, h1, h2, h, List.filter_cons]
      omega

theorem soundingExits_le (w : Nat) (inputs : List TickInput) (s : LoopState) :
    soundingExits w inputs s ≤ (inputs.filter (fun i => !decide (matching i))).length := by
  induction inputs generalizing s with
  | nil => simp [soundingExits]
  | cons inp rest ih =>
    have h2 := ih (tick w inp s).1
    by_cases h : matching inp
    · simp [soundingExits, tick_alarm_sounding, h, List.filter_cons]
      exact h2
    · cases hs : s.alarm_sounding <;>
        simp [soundingExits, tick_alarm_sounding, h, hs, List.filter_cons] <;> omega

theorem not_mem_drawEffects (inp : TickInput) (e : Effect)
    (h1 : ∀ t, e ≠ Effect.drawTime t) (h2 : e ≠ Effect.drawBTLine)
    (h3 : e ≠ Effect.drawAlarmLabel) : e ∉ drawEffects inp := by
  cases hb : inp.bt_draw <;> simp [drawEffects, hb, h1, h2, h3]

theorem tick_no_shutdown_call (w : Nat) (inp : TickInput) (s : LoopState) :
    Effect.joinScanner ∉ (tick w inp s).2 ∧ Effect.matrixClear ∉ (tick w inp s).2 ∧
      Effect.matrixDelete ∉ (tick w inp s).2 := by
  have hj := not_mem_drawEffects inp Effect.joinScanner (by simp) (by simp) (by simp)
  have hc := not_mem_drawEffects inp Effect.matrixClear (by simp) (by simp) (by simp)
  have hd := not_mem_drawEffects inp Effect.matrixDelete (by simp) (by simp) (by simp)
  cases ha : alarmDecision inp <;> cases hb : s.alarm_bg_blinker <;>
    cases hs : s.alarm_sounding <;>
    simp [tick, alarmActions, ha, hb, hs, hj, hc, hd]

theorem renderLoop_no_shutdown_call (w : Nat) (inputs : List TickInput) (s : LoopState) :
    Effect.joinScanner ∉ (renderLoop w inputs s).2 ∧
      Effect.matrixClear ∉ (renderLoop w inputs s).2 ∧
      Effect.matrixDelete ∉ (renderLoop w inputs s).2 := by
  induction inputs generalizing s with
  | nil => simp [renderLoop]
  | cons inp rest ih =>
    obtain ⟨a1, a2, a3⟩ := tick_no_shutdown_call w inp s
    obtain ⟨b1, b2, b3⟩ := ih (tick w inp s).1
    simp [renderLoop_cons, a1, a2, a3, b1, b2, b3]

/-! ## The claims about the render loop -/

/-- C1: after an iteration of the render loop `alarm_active` and
`alarm_sounding` are both true exactly when the first five characters of the
formatted time are the alarm time "10:49" and the presence flag read at line
241 is true, whatever the state before; when the first five characters differ
the alarm is not sounding after the iteration. -/
theorem tick_sounding_iff (w : Nat) (inp : TickInput) (s : LoopState) :
    (((tick w inp s).1.alarm_active = true ∧ (tick w inp s).1.alarm_sounding = true) ↔
      (inp.text_buffer.take 5 = alarm_time ∧ inp.bt_alarm = true)) ∧
    (inp.text_buffer.take 5 ≠ alarm_time → (tick w inp s).1.alarm_sounding = false) := by
  have ha := tick_alarm_active w inp s
  have hs := tick_alarm_sounding w inp s
  constructor
  · rw [ha, hs]
    simp [matching]
  · intro hne
    rw [hs]
    simp [matching, hne]

/-- C3: a run of one or more consecutive matching iterations entered not
sounding calls `music.play()` exactly once, in its first iteration, and never
calls `music.stop()`; the first following iteration that does not match calls
`music.stop()` exactly once, does not call `music.play()`, and leaves the
alarm not sounding. -/
theorem start_playback_edge_triggered (w : Nat) (s : LoopState) (first : TickInput)
    (run : List TickInput) (after : TickInput)
    (hs : s.alarm_sounding = false) (hm : ∀ i ∈ first :: run, matching i)
    (ha : ¬ matching after) :
    playCount (tick w first s).2 = 1 ∧
    playCount (renderLoop w run (tick w first s).1).2 = 0 ∧
    playCount (renderLoop w (first :: run) s).2 = 1 ∧
    stopCount (renderLoop w (first :: run) s).2 = 0 ∧
    stopCount (tick w after (renderLoop w (first :: run) s).1).2 = 1 ∧
    playCount (tick w after (renderLoop w (first :: run) s).1).2 = 0 ∧
    (tick w after (renderLoop w (first :: run) s).1).1.alarm_sounding = false := by
  have h1 : matching first := hm first (List.mem_cons_self _ _)
  have h2 : ∀ i ∈ run, matching i := fun i hi => hm i (List.mem_cons_of_mem _ hi)
  have hs2 : (tick w first s).1.alarm_sounding = true := by
    rw [tick_alarm_sounding]; simp [h1]
  obtain ⟨rp, rs, _⟩ := renderLoop_matching_sounding w run (tick w first s).1 hs2 h2
  have fp : playCount (tick w first s).2 = 1 := by
    rw [playCount_tick]; simp [h1, hs]
  have fs : stopCount (tick w first s).2 = 0 := by
    rw [stopCount_tick]; simp [h1]
  refine ⟨fp, rp, ?_, ?_, ?_, ?_, ?_⟩
  · simp only [playCount] at fp rp ⊢
    simp [renderLoop_cons, List.count_append, fp, rp]
  · simp only [stopCount] at fs rs ⊢
    simp [renderLoop_cons, List.count_append, fs, rs]
  · rw [stopCount_tick]; simp [ha]
  · rw [playCount_tick]; simp [ha]
  · rw [tick_alarm_sounding]; simp [ha]

/-- C3, at five matching iterations from the initial state followed by one
with the flag clear: one start, no stop during the run, one stop after it. -/
theorem start_playback_edge_triggered_five :
    playCount (renderLoop 64 [tickAtAlarm, tickAtAlarm, tickAtAlarm, tickAtAlarm, tickAtAlarm]
      (initialState 0)).2 = 1 ∧
    stopCount (renderLoop 64 [tickAtAlarm, tickAtAlarm, tickAtAlarm, tickAtAlarm, tickAtAlarm]
      (initialState 0)).2 = 0 ∧
    stopCount (tick 64 tickAtAlarmAbsent
      (renderLoop 64 [tickAtAlarm, tickAtAlarm, tickAtAlarm, tickAtAlarm, tickAtAlarm]
        (initialState 0)).1).2 = 1 := by
  have h := start_playback_edge_triggered 64 (initialState 0) tickAtAlarm
    [tickAtAlarm, tickAtAlarm, tickAtAlarm, tickAtAlarm] tickAtAlarmAbsent rfl
    (by decide) (by decide)
  exact ⟨h.2.2.1, h.2.2.2.1, h.2.2.2.2.1⟩

/-- C4, as stated, fails: an iteration at midnight with the flag clear, entered
from the initial state, begins and ends not sounding and still calls
`music.stop()`; the run of that one iteration has one stop and no
sounding-to-not-sounding transition. -/
theorem stop_playback_not_edge_triggered :
    (initialState 0).alarm_sounding = false ∧
    (tick 64 tickMidnight (initialState 0)).1.alarm_sounding = false ∧
    stopCount (tick 64 tickMidnight (initialState 0)).2 = 1 ∧
    stopCount (renderLoop 64 [tickMidnight] (initialState 0)).2 = 1 ∧
    soundingExits 64 [tickMidnight] (initialState 0) = 0 := by
  decide

/-- C4, amended: an iteration calls `music.stop()` exactly once when the alarm
is not sounding after it and not at all when it is, whether or not the alarm
was sounding before; so over any run the number of stops is the number of
iterations that end not sounding, every sounding-to-not-sounding transition
is one of them, and an iteration entered sounding and left not sounding calls
stop exactly once. -/
theorem stop_playback_level_triggered (w : Nat) (inputs : List TickInput) (inp : TickInput)
    (s : LoopState) :
    stopCount (tick w inp s).2 = (if (tick w inp s).1.alarm_sounding then 0 else 1) ∧
    stopCount (renderLoop w inputs s).2 =
      (inputs.filter (fun i => !decide (matching i))).length ∧
    soundingExits w inputs s ≤ stopCount (renderLoop w inputs s).2 ∧
    soundingExits w [inp] s ≤ stopCount (tick w inp s).2 := by
  refine ⟨?_, stopCount_renderLoop w inputs s, ?_, ?_⟩
  · rw [stopCount_tick, tick_alarm_sounding]
    by_cases h : matching inp <;> simp [h]
  · rw [stopCount_renderLoop]
    exact soundingExits_le w inputs s
  · rw [stopCount_tick]
    by_cases h : matching inp
    · simp [soundingExits, tick_alarm_sounding, h]
    · cases hs : s.alarm_sounding <;> simp [soundingExits, tick_alarm_sounding, h, hs]

/-- C7: in every run of the render thread the trace is the trace of the loop,
which holds no join and no display teardown, followed by `music.stop()`, then
the join of the scanner thread, then the teardown; and every `music.play()` of
the trace has a `music.stop()` later in the trace. -/
theorem shutdown_stops_playback (w : Nat) (t0 : Int) (inputs : List TickInput) :
    (∃ pre post, mainRun w t0 inputs = pre ++ Effect.musicStop :: post ∧
      pre = (renderLoop w inputs (initialState t0)).2 ∧
      Effect.joinScanner ∉ pre ∧ Effect.matrixClear ∉ pre ∧ Effect.matrixDelete ∉ pre ∧
      post = [Effect.joinScanner, Effect.matrixClear, Effect.matrixDelete,
        Effect.writeNewline]) ∧
    (∀ i : Nat, (mainRun w t0 inputs)[i]? = some Effect.musicPlay →
      ∃ j : Nat, i < j ∧ (mainRun w t0 inputs)[j]? = some Effect.musicStop) := by
  obtain ⟨n1, n2, n3⟩ := renderLoop_no_shutdown_call w inputs (initialState t0)
  refine ⟨⟨_, _, rfl, rfl, n1, n2, n3, rfl⟩, ?_⟩
  intro i hi
  refine ⟨(renderLoop w inputs (initialState t0)).2.length, ?_, ?_⟩
  · by_contra hlt
    have hge : (renderLoop w inputs (initialState t0)).2.length ≤ i := by omega
    rw [mainRun, List.getElem?_append_right hge] at hi
    generalize i - (renderLoop w inputs (initialState t0)).2.length = k at hi
    rcases k with _ | _ | _ | _ | _ | _ <;> simp [shutdownEffects] at hi
  · rw [mainRun, List.getElem?_append_right (le_refl _)]
    simp [shutdownEffects]

/-! ## The scan cycle -/

theorem cstr_target_device : cstr target_device = target_device := by decide

theorem deviceFlag_eq (d : Device) :
    deviceFlag d = decide (cstr d.addr ≠ target_device) := by
  simp [deviceFlag, strcmp_eq_zero_iff, cstr_target_device]

theorem scanLoop_cons_flag (flag : Bool) (d : Device) (rest : List Device) :
    (scanLoop flag (d :: rest)).1 = (scanLoop (deviceFlag d) rest).1 := rfl

/-- After the loop over a non-empty array the flag is the one written for the last entry. -/
theorem scanLoop_append_last (flag : Bool) (devs : List Device) (last : Device) :
    (scanLoop flag (devs ++ [last])).1 = deviceFlag last := by
  induction devs generalizing flag with
  | nil => simp [scanLoop]
  | cons d rest ih => simpa [scanLoop_cons_flag] using ih (deviceFlag d)

theorem BT_scanner_cycle_flag (flag : Bool) (dev_id sock num_rsp : Int) (ii : List Device)
    (h1 : 0 ≤ dev_id) (h2 : 0 ≤ sock) :
    (BT_scanner_cycle flag dev_id sock num_rsp ii).map Prod.fst =
      some (if num_rsp = 0 then false else (scanLoop flag (ii.take num_rsp.toNat)).1) := by
  have h : ¬ (dev_id < 0 ∨ sock < 0) := by omega
  simp [BT_scanner_cycle, h]

/-- A cycle whose inquiry fails leaves the flag as it found it. -/
theorem BT_scanner_cycle_failed_inquiry (flag : Bool) (dev_id sock num_rsp : Int)
    (ii : List Device) (h1 : 0 ≤ dev_id) (h2 : 0 ≤ sock) (h3 : num_rsp < 0) :
    (BT_scanner_cycle flag dev_id sock num_rsp ii).map Prod.fst = some flag := by
  rw [BT_scanner_cycle_flag flag dev_id sock num_rsp ii h1 h2]
  have h0 : num_rsp ≠ 0 := by omega
  have ht : num_rsp.toNat = 0 := by omega
  simp [h0, ht, scanLoop]

/-- C5: a scan cycle whose inquiry returns zero devices completes and leaves
the presence flag false, whatever it was before. -/
theorem scan_zero_devices_clears_flag (prior : Bool) (dev_id sock : Int) (ii : List Device)
    (h1 : 0 ≤ dev_id) (h2 : 0 ≤ sock) :
    BT_scanner_cycle prior dev_id sock 0 ii = some (false, []) := by
  have h : ¬ (dev_id < 0 ∨ sock < 0) := by omega
  simp [BT_scanner_cycle, h, scanLoop]

/-- C5, at a flag that was true before the cycle. -/
theorem scan_zero_devices_clears_flag_true :
    BT_scanner_cycle true 0 3 0 [] = some (false, []) :=
  scan_zero_devices_clears_flag true 0 3 [] (by decide) (by decide)

/-- C10: after a scan cycle that discovered a non-empty list of devices the
presence flag is true exactly when the address string of the last device
differs from "Simon's phone"; neither the earlier devices, nor the flag before
the cycle, nor any resolved name enters the result. -/
theorem scan_flag_is_last_address (prior : Bool) (dev_id sock : Int) (devs : List Device)
    (last : Device) (h1 : 0 ≤ dev_id) (h2 : 0 ≤ sock) :
    (BT_scanner_cycle prior dev_id sock ((devs ++ [last]).length : Nat) (devs ++ [last])).map
      Prod.fst = some (decide (cstr last.addr ≠ target_device)) := by
  rw [BT_scanner_cycle_flag prior dev_id sock _ _ h1 h2]
  have h0 : (((devs ++ [last]).length : Nat) : Int) ≠ 0 := by simp; omega
  rw [if_neg h0, Int.toNat_ofNat, List.take_length, scanLoop_append_last, deviceFlag_eq]

/-- C10, at a cycle that found the two sample devices with the flag false before. -/
theorem scan_flag_is_last_address_two :
    (BT_scanner_cycle false 0 3 2 [kitchenSpeaker, unnamedDevice]).map Prod.fst =
      some (decide (cstr unnamedDevice.addr ≠ target_device)) :=
  scan_flag_is_last_address false 0 3 [kitchenSpeaker] unnamedDevice (by decide) (by decide)

/-- C2, evaluated: a cycle that discovers one device which is not the target,
by address or by name, entered with the flag false, leaves the flag true. -/
theorem scan_sets_flag_without_target :
    ¬ isTarget kitchenSpeaker ∧
    (BT_scanner_cycle false 0 3 1 [kitchenSpeaker]).map Prod.fst = some true := by
  decide

/-- C6, evaluated: a cycle whose inquiry returns -1, entered with the flag
true, completes with the flag still true, where a cycle that found zero
devices leaves it false. -/
theorem failed_inquiry_keeps_flag :
    BT_scanner_cycle true 0 3 (-1) [] =
      some (true, [ScanOutput.perror "hci_inquiry".toList]) ∧
    BT_scanner_cycle true 0 3 0 [] = some (false, []) := by
  decide

/-! ## The two threads -/

theorem exec_append (s : Shared) (l1 l2 : List Action) :
    exec s (l1 ++ l2) = (exec s l1).bind (fun s2 => exec s2 l2) := by
  induction l1 generalizing s with
  | nil => simp [exec]
  | cons a rest ih =>
    cases h : step s a with
    | none => simp [exec, h]
    | some s2 => simp [exec, h, ih]

theorem exec_scanDevices (s : Shared) (num_rsp : Int) (todo : List Device)
    (hpc : s.pc = ScannerPc.inCycle num_rsp todo) :
    exec s (List.replicate todo.length Action.scanDevice) =
      some { s with bluetooth_connected := (scanLoop s.bluetooth_connected todo).1
                    pc := ScannerPc.inCycle num_rsp [] } := by
  induction todo generalizing s with
  | nil =>
    cases s
    simp only at hpc
    simp [exec, scanLoop, hpc]
  | cons d rest ih =>
    have hstep : step s Action.scanDevice =
        some { s with bluetooth_connected := deviceFlag d
                      pc := ScannerPc.inCycle num_rsp rest } := by
      simp [step, hpc]
    simp only [List.length_cons, List.replicate_succ, exec, hstep]
    rw [ih _ rfl]
    simp [scanLoop]

/-- The statements of a whole cycle, run without interruption between two
cycles, leave the flag that `BT_scanner_cycle` computes. -/
theorem exec_cycleActions (s : Shared) (num_rsp : Int) (ii : List Device)
    (hpc : s.pc = ScannerPc.betweenCycles) (hl : s.recur_m_locked = false) :
    (exec s (cycleActions num_rsp ii)).map (fun s2 => s2.bluetooth_connected) =
      (BT_scanner_cycle s.bluetooth_connected 0 0 num_rsp ii).map Prod.fst := by
  rw [BT_scanner_cycle_flag _ 0 0 num_rsp ii (le_refl _) (le_refl _)]
  have hstep : step s (Action.scanBegin num_rsp ii) =
      some { s with recur_m_locked := true
                    pc := ScannerPc.inCycle num_rsp (ii.take num_rsp.toNat) } := by
    simp [step, hpc, hl]
  simp only [cycleActions, exec, hstep]
  rw [exec_append, exec_scanDevices _ num_rsp (ii.take num_rsp.toNat) rfl]
  simp [exec, step]

/-- C9, evaluated: after a completed cycle that found nothing, the scanner
starts a cycle that finds two devices; the render thread reads the flag after
the first device has been handled. The read sees `true`, written inside the
unfinished cycle, while the last completed cycle left `false`, and it happens
while the scanner holds `recur_m`. -/
theorem render_reads_inside_cycle :
    (exec Shared.initial readMidCycle).map (fun s => s.reads) =
      some [{ value := true, last_completed := false, scanner_holds_lock := true }] := by
  decide


/-! ## Pacing -/

/-- An addition whose exact result is in the range of `time_t` does not wrap. -/
theorem wrapTimeT_eq_self (w : Nat) (x : Int) (hw : 0 < w) (hlo : TIME_MIN w ≤ x)
    (hhi : x ≤ TIME_MAX w) : wrapTimeT w x = x := by
  obtain ⟨v, rfl⟩ : ∃ v, w = v + 1 := ⟨w - 1, by omega⟩
  simp only [TIME_MIN, TIME_MAX, Nat.add_sub_cancel] at hlo hhi
  simp only [wrapTimeT, Nat.add_sub_cancel, pow_succ]
  have hpos : (0 : Int) < 2 ^ v := by positivity
  rw [Int.emod_eq_of_lt (by omega) (by omega)]
  omega

theorem sleepTargets_append (l1 l2 : List Effect) :
    sleepTargets (l1 ++ l2) = sleepTargets l1 ++ sleepTargets l2 := by
  induction l1 with
  | nil => simp [sleepTargets]
  | cons e rest ih => cases e <;> simp [sleepTargets, ih]

theorem sleepTargets_tick (w : Nat) (inp : TickInput) (s : LoopState) :
    sleepTargets (tick w inp s).2 = [s.next_time] := by
  cases ha : alarmDecision inp <;> cases hb : s.alarm_bg_blinker <;>
    cases hs : s.alarm_sounding <;> cases hd : inp.bt_draw <;>
    simp [tick, alarmActions, drawEffects, ha, hb, hs, hd, sleepTargets]

/-- As long as the seconds stay in the range of `time_t`, the sleeps of a run
are aimed at the entry value of `next_time` and the whole seconds after it, in
order. -/
theorem sleepTargets_renderLoop (w : Nat) (inputs : List TickInput) (s : LoopState)
    (hw : 0 < w) (hlo : TIME_MIN w ≤ s.next_time.tv_sec)
    (hhi : s.next_time.tv_sec + inputs.length ≤ TIME_MAX w + 1) :
    sleepTargets (renderLoop w inputs s).2 =
      (List.range inputs.length).map
        (fun (k : Nat) => ({ s.next_time with tv_sec := s.next_time.tv_sec + (k : Int) } : Timespec)) := by
  induction inputs generalizing s with
  | nil => simp [renderLoop, sleepTargets]
  | cons inp rest ih =>
    rw [renderLoop_cons, sleepTargets_append, sleepTargets_tick]
    rcases rest with _ | ⟨inp2, rest2⟩
    · rcases s with ⟨a, so, bl, ⟨sec, nsec⟩⟩
      simp [renderLoop, sleepTargets, List.range_succ]
    · have hlen : (((inp :: inp2 :: rest2).length : Nat) : Int) =
          ((inp2 :: rest2).length : Nat) + 1 := by simp
      have hlen2 : (0 : Int) < ((inp2 :: rest2).length : Nat) := by
        simp only [List.length_cons]; omega
      have hwrap : wrapTimeT w (s.next_time.tv_sec + 1) = s.next_time.tv_sec + 1 :=
        wrapTimeT_eq_self w _ hw (by omega) (by omega)
      have hnext : (tick w inp s).1.next_time =
          { s.next_time with tv_sec := s.next_time.tv_sec + 1 } := by
        rw [tick_next_time, hwrap]
      rw [ih (tick w inp s).1 (by rw [hnext]; simp only; omega)
        (by rw [hnext]; simp only; omega), hnext]
      rcases s with ⟨a, so, bl, ⟨sec, nsec⟩⟩
      generalize inp2 :: rest2 = rest
      rw [List.length_cons, List.range_succ_eq_map]
      simp only [List.map_cons, List.map_map, List.singleton_append, List.cons.injEq]
      constructor
      · simp
      · apply List.map_congr_left
        intro k _
        simp only [Function.comp, Nat.cast_succ, Timespec.mk.injEq, and_true]
        ring

/-- Once an iteration starts at least 400 ms before its target, every sleep
from then on returns exactly at its target, as long as the seconds stay in the
range of `time_t`. -/
theorem wakeInstants_on_boundary (w : Nat) (ticks : List (TickInput × TickTiming))
    (now : Int) (s : LoopState) (hw : 0 < w) (hlo : TIME_MIN w ≤ s.next_time.tv_sec)
    (hhi : s.next_time.tv_sec + ticks.length ≤ TIME_MAX w + 1)
    (hb : ∀ x ∈ ticks, withinBudget x.2) (hn : s.next_time.tv_nsec = 0)
    (hnow : now + 400000000 ≤ s.next_time.tv_sec * NSEC_PER_SEC) (k : Nat)
    (hk : k < ticks.length) :
    (wakeInstants w now s ticks)[k]? = some ((s.next_time.tv_sec + k) * NSEC_PER_SEC) := by
  induction ticks generalizing now s k with
  | nil => simp at hk
  | cons x rest ih =>
    obtain ⟨inp, tm⟩ := x
    have hx : withinBudget tm := hb (inp, tm) (List.mem_cons_self _ _)
    have hrest : ∀ y ∈ rest, withinBudget y.2 := fun y hy => hb y (List.mem_cons_of_mem _ hy)
    unfold withinBudget at hx
    have hwoke : clock_nanosleep_abstime (now + tm.work_before_sleep) s.next_time =
        s.next_time.tv_sec * NSEC_PER_SEC := by
      simp only [clock_nanosleep_abstime, Timespec.toNanos, hn, add_zero]
      apply max_eq_right
      omega
    cases k with
    | zero => simp [wakeInstants, hwoke]
    | succ j =>
      have hj : j < rest.length := by simpa using hk
      have hlen : (((inp, tm) :: rest).length : Int) = (rest.length : Int) + 1 := by simp
      have hwrap : wrapTimeT w (s.next_time.tv_sec + 1) = s.next_time.tv_sec + 1 :=
        wrapTimeT_eq_self w _ hw (by omega) (by omega)
      have hnext : (tick w inp s).1.next_time =
          { s.next_time with tv_sec := s.next_time.tv_sec + 1 } := by
        rw [tick_next_time, hwrap]
      have h2 := ih (s.next_time.tv_sec * NSEC_PER_SEC + tm.work_after_sleep) (tick w inp s).1
        (by rw [hnext]; simp only; omega) (by rw [hnext]; simp only; omega)
        hrest (by rw [hnext]; exact hn)
        (by rw [hnext]; simp only [NSEC_PER_SEC]; omega) j hj
      simp only [wakeInstants, hwoke, List.getElem?_cons_succ, h2, hnext]
      congr 1
      push_cast
      ring

/-- C8, as stated, fails, in two ways. With a `time_t` of 64 bits, `time(NULL)`
returned 0 and the loop is entered at 0.9 s; with 400 ms of work before each
sleep, all within the budget, the second iteration is asked to sleep until 1 s
and its sleep returns at 1.7 s, the third until 2 s and returns at 2.1 s. And
started at the largest `time_t`, the second iteration is asked to sleep until
the smallest `time_t`, not one second later. -/
theorem late_entry_misses_boundaries :
    withinBudget slowTick.2 ∧
    (900000000 : Int) / NSEC_PER_SEC = 0 ∧
    sleepTargets (renderLoop 64 [slowTick.1, slowTick.1, slowTick.1] (initialState 0)).2 =
      [{ tv_sec := 0, tv_nsec := 0 }, { tv_sec := 1, tv_nsec := 0 },
       { tv_sec := 2, tv_nsec := 0 }] ∧
    wakeInstants 64 900000000 (initialState 0) [slowTick, slowTick, slowTick] =
      [1300000000, 1700000000, 2100000000] ∧
    TIME_MAX 64 = 9223372036854775807 ∧
    sleepTargets (renderLoop 64 [slowTick.1, slowTick.1]
        (initialState 9223372036854775807)).2 =
      [{ tv_sec := 9223372036854775807, tv_nsec := 0 },
       { tv_sec := -9223372036854775808, tv_nsec := 0 }] := by
  decide

/-- C8, amended: for a `time_t` of any width, a start second t0 and a number
of iterations n such that t0 + n - 1 is still a `time_t`, and work of at most
400 ms per iteration, the instant the k-th iteration sleeps until is t0 + k
whole seconds with zero nanoseconds, independent of the work durations; and
when the loop is entered at most 200 ms after the instant t0 seconds, the
sleep of every iteration after the first returns exactly at its target. -/
theorem absolute_time_pacing (w : Nat) (t0 : Int) (ticks : List (TickInput × TickTiming))
    (hw : 0 < w) (hlo : TIME_MIN w ≤ t0) (hhi : t0 + ticks.length ≤ TIME_MAX w + 1)
    (hb : ∀ x ∈ ticks, withinBudget x.2) :
    sleepTargets (renderLoop w (ticks.map Prod.fst) (initialState t0)).2 =
      (List.range ticks.length).map
        (fun (k : Nat) => ({ tv_sec := t0 + (k : Int), tv_nsec := 0 } : Timespec)) ∧
    (∀ d : Nat, d ≤ 200000000 → ∀ k : Nat, 1 ≤ k → k < ticks.length →
      (wakeInstants w (t0 * NSEC_PER_SEC + d) (initialState t0) ticks)[k]? =
        some ((t0 + k) * NSEC_PER_SEC)) := by
  constructor
  · rw [sleepTargets_renderLoop w _ _ hw (by simpa [initialState] using hlo)
      (by simpa [initialState] using hhi)]
    simp [initialState]
  · intro d hd k hk1 hk
    rcases ticks with _ | ⟨⟨inp, tm⟩, rest⟩
    · simp at hk
    · obtain ⟨j, rfl⟩ : ∃ j, k = j + 1 := ⟨k - 1, by omega⟩
      have hx : withinBudget tm := hb (inp, tm) (List.mem_cons_self _ _)
      have hrest : ∀ y ∈ rest, withinBudget y.2 :=
        fun y hy => hb y (List.mem_cons_of_mem _ hy)
      unfold withinBudget at hx
      have hj : j < rest.length := by simpa using hk
      have hlen : (((inp, tm) :: rest).length : Int) = (rest.length : Int) + 1 := by simp
      have hjpos : (0 : Int) < (rest.length : Int) := by omega
      have hwrap : wrapTimeT w (t0 + 1) = t0 + 1 :=
        wrapTimeT_eq_self w _ hw (by omega) (by omega)
      have hnext : (tick w inp (initialState t0)).1.next_time =
          { tv_sec := t0 + 1, tv_nsec := 0 } := by
        rw [tick_next_time]
        simp [initialState, hwrap]
      have hwoke : clock_nanosleep_abstime (t0 * NSEC_PER_SEC + d + tm.work_before_sleep)
          (initialState t0).next_time = t0 * NSEC_PER_SEC + d + tm.work_before_sleep := by
        simp only [clock_nanosleep_abstime, Timespec.toNanos, initialState, add_zero]
        apply max_eq_left
        omega
      have h2 := wakeInstants_on_boundary w rest
        (t0 * NSEC_PER_SEC + d + tm.work_before_sleep + tm.work_after_sleep)
        (tick w inp (initialState t0)).1 hw (by rw [hnext]; simp only; omega)
        (by rw [hnext]; simp only; omega) hrest (by rw [hnext])
        (by rw [hnext]; simp only [NSEC_PER_SEC]; omega) j hj
      simp only [wakeInstants, List.getElem?_cons_succ]
      rw [hwoke, h2, hnext]
      simp only
      congr 1
      push_cast
      ring

/-- C8, amended, for a `time_t` of 32 bits, at 60 iterations of 400 ms each,
entered 200 ms after second 1000: the sleeps aim at seconds 1000 to 1059 and
the last one returns at second 1059 exactly. -/
theorem absolute_time_pacing_sixty :
    sleepTargets (renderLoop 32 ((List.replicate 60 slowTick).map Prod.fst)
        (initialState 1000)).2 =
      (List.range (List.replicate 60 slowTick).length).map
        (fun (k : Nat) => ({ tv_sec := 1000 + (k : Int), tv_nsec := 0 } : Timespec)) ∧
    (wakeInstants 32 (1000 * NSEC_PER_SEC + (200000000 : Nat)) (initialState 1000)
      (List.replicate 60 slowTick))[59]? = some ((1000 + (59 : Nat)) * NSEC_PER_SEC) :=
  have h := absolute_time_pacing 32 1000 (List.replicate 60 slowTick) (by decide)
    (by decide) (by decide) (fun x hx => by rw [List.eq_of_mem_replicate hx]; decide)
  ⟨h.1, h.2 200000000 (by decide) 59 (by decide) (by decide)⟩

end VicinityAlarmClock
